import Mathlib

/-!
Verification development for the ArtiKV Adaptive Radix Tree (ART) core.

The embedding below is a shallow model of the C++ sources:
  * `src/db/art.hpp`   — the node family (`Node4`, `Node16`, `Node48`, `Node256`, `LeafNode`)
    and the `ART` handle (root slot and `tree_size` counter);
  * the implementation file (`src/unnamed/part_000`) — `ART::insert`,
    `ART::insertRecursively`, `ART::search`, `ART::searchRecursively`, `ART::remove`,
    `InnerNode::commonPrefixLen`, the per-variant `findChild` / `addChild` / `isFull` /
    `grow` methods, and `LeafNode::leafMatches`.

Modelling conventions:
  * Byte strings (`ARTDataRef` / `ARTData`, i.e. spans/vectors of `unsigned char`) are
    `List Nat`; all inputs used in theorems hold values below 256, as the C++ types force.
  * The process heap is explicit: `ART.heap` is a list of `Cell`s, a pointer is an index
    into it, and `delete` marks the cell dead while keeping its contents (eager free with
    no reuse, exactly what the single-threaded C++ run observes).  The `ub` flag records
    every event that is undefined behaviour in the C++ source: an out-of-bounds span or
    array access, or any access through a dead/invalid pointer.  A run that ends with
    `ub = false` is fully defined C++ behaviour.
  * `children_count` is `std::atomic<uint8_t>`; every increment is taken modulo 256.
  * `prefix_len` and `tree_size` are `size_t`; the one place where `size_t` wrap-around
    is reachable (`key.size() - depth` in `commonPrefixLen`) models the wrap explicitly.
  * `int depth` is modelled as `Nat`: it starts at 0 and only ever grows in the source.
  * Recursive tree walks carry explicit fuel; the fuel-exhaustion branches set `ub` and
    are unreachable at the fuel bounds used (the trees in the theorems are tiny).
  * The C++ returns a mutable reference to a child slot; the model passes the slot value
    down and writes the returned value back into the parent cell, which is equivalent for
    this sequential code.
-/

namespace ArtiKV

set_option maxRecDepth 100000

/-- Byte strings (`art::ARTData` / `art::ARTDataRef`): lists of byte values. -/
abbrev ARTData := List Nat

/-- `art::MAX_PREFIX_LEN` (art.hpp line 19): bytes of compressed prefix stored inline. -/
def MAX_PREFIX_LEN : Nat := 8

/-- Modulus of `size_t` arithmetic. -/
def SIZE_T_MOD : Nat := 2 ^ 64

/-- The node family (art.hpp): one leaf variant and four inner variants.  Every inner
variant carries the `InnerNode` header (`children_count`, `prefix_len`, the 8-byte
inline prefix array, here `plen` and `pfx`) plus its own keys/children tables:
`node4`/`node16` have parallel `keys`/`children` arrays (lengths 4/16), `node48` has a
256-entry byte index and 48 children, `node256` has 256 direct child slots.  A child
slot holds an optional pointer (heap index); `none` is the null pointer. -/
inductive Node where
  | leaf (key : ARTData) (val : ARTData)
  | node4 (cc : Nat) (keys : List Nat) (children : List (Option Nat)) (plen : Nat) (pfx : List Nat)
  | node16 (cc : Nat) (keys : List Nat) (children : List (Option Nat)) (plen : Nat) (pfx : List Nat)
  | node48 (cc : Nat) (keys : List Nat) (children : List (Option Nat)) (plen : Nat) (pfx : List Nat)
  | node256 (cc : Nat) (children : List (Option Nat)) (plen : Nat) (pfx : List Nat)
  deriving DecidableEq

/-- A heap cell: node contents plus a liveness bit.  `delete` clears `live` but keeps
the contents, matching what the (single-threaded, no-reuse) C++ run observes. -/
structure Cell where
  nd : Node
  live : Bool
  deriving DecidableEq

/-- The `art::ART` handle (art.hpp lines 186-230): root slot and `tree_size`, together
with the modelled process heap and the undefined-behaviour flag. -/
structure ART where
  heap : List Cell
  root : Option Nat
  tree_size : Nat
  ub : Bool
  deriving DecidableEq

/-- A fresh tree: null root, zero size (value-initialised atomics), empty heap. -/
def ART.empty : ART := { heap := [], root := none, tree_size := 0, ub := false }

/-- Record that the run performed an operation that is undefined behaviour in C++. -/
def setUB (t : ART) : ART := { t with ub := true }

/-- Read `s[i]` on a `std::span` (unchecked `operator[]`): in range yields the byte,
out of range is UB — flagged, with 0 as the arbitrary continuation value. -/
def spanGet (t : ART) (s : List Nat) (i : Nat) : ART × Nat :=
  if i < s.length then (t, s.getD i 0) else (setUB t, 0)

/-- Read index `i` of an inline member array (e.g. the 8-byte prefix array): past the
end is UB — flagged, 0 as the arbitrary continuation value. -/
def arrGet (t : ART) (a : List Nat) (i : Nat) : ART × Nat :=
  if i < a.length then (t, a.getD i 0) else (setUB t, 0)

/-- Write index `i` of an inline member array: past the end is UB — flagged, and the
write is dropped (the array itself cannot change). -/
def arrSet (t : ART) (a : List Nat) (i : Nat) (v : Nat) : ART × List Nat :=
  if i < a.length then (t, a.set i v) else (setUB t, a)

/-- Allocate a fresh cell (`new` in `makeNode4`/`makeLeafNode`/...): returns the pointer. -/
def alloc (t : ART) (nd : Node) : ART × Nat :=
  ({ t with heap := t.heap ++ [⟨nd, true⟩] }, t.heap.length)

/-- Dereference a pointer.  A dead cell still yields its contents (no reuse) but the
access is UB; a wild pointer yields nothing. -/
def readCell (t : ART) (p : Nat) : ART × Option Node :=
  match t.heap.get? p with
  | some c => (if c.live then t else setUB t, some c.nd)
  | none => (setUB t, none)

/-- Overwrite the node stored at `p`.  Writing through a dead or wild pointer is UB
(the write still lands on a dead cell, as the freed memory is not reused). -/
def writeCell (t : ART) (p : Nat) (nd : Node) : ART :=
  match t.heap.get? p with
  | some c =>
      let t1 := { t with heap := t.heap.set p ⟨nd, c.live⟩ }
      if c.live then t1 else setUB t1
  | none => setUB t

/-- `delete` a pointer: mark the cell dead.  Double free / wild free is UB. -/
def freeCell (t : ART) (p : Nat) : ART :=
  match t.heap.get? p with
  | some c =>
      let t1 := { t with heap := t.heap.set p ⟨c.nd, false⟩ }
      if c.live then t1 else setUB t1
  | none => setUB t

/-- `LeafNode::leafMatches` (implementation file lines 264-269): false when the query
length differs from the stored key length; otherwise
`std::equal(this->key.begin()+depth, this->key.end(), key.begin())`, i.e. the stored
suffix from `depth` is compared against the query taken FROM ITS START (the third
argument is `key.begin()`, not `key.begin()+depth`).  Taking `begin()+depth` past the
stored end is UB. -/
def leafMatches (t : ART) (skey : ARTData) (key : ARTData) (depth : Nat) : ART × Bool :=
  if key.length ≠ skey.length then (t, false)
  else
    let t1 := if depth ≤ skey.length then t else setUB t
    (t1, skey.drop depth == key.take (skey.length - depth))

/-- The scan loop of `InnerNode::commonPrefixLen` (lines 121-126): compare
`prefix[j]` with `key[depth+j]` for `j < iterTime`, returning the first mismatch
position (or `iterTime`). -/
def cplLoop (t : ART) (pf : List Nat) (key : ARTData) (depth : Nat) :
    Nat → Nat → ART × Nat
  | 0, j => (t, j)
  | rem + 1, j =>
      let tb := spanGet t key (depth + j)
      if pf.getD j 0 = tb.2 then cplLoop tb.1 pf key depth rem (j + 1)
      else (tb.1, j)

/-- Header field `prefix_len` of an inner node (0 for a leaf; never consulted there). -/
def Node.plen : Node → Nat
  | .leaf _ _ => 0
  | .node4 _ _ _ pl _ => pl
  | .node16 _ _ _ pl _ => pl
  | .node48 _ _ _ pl _ => pl
  | .node256 _ _ pl _ => pl

/-- Header field: the 8-byte inline prefix array (empty for a leaf). -/
def Node.pfx : Node → List Nat
  | .leaf _ _ => []
  | .node4 _ _ _ _ pf => pf
  | .node16 _ _ _ _ pf => pf
  | .node48 _ _ _ _ pf => pf
  | .node256 _ _ _ pf => pf

/-- Header field `children_count` (an 8-bit counter in the source). -/
def Node.ccOf : Node → Nat
  | .leaf _ _ => 0
  | .node4 cc _ _ _ _ => cc
  | .node16 cc _ _ _ _ => cc
  | .node48 cc _ _ _ _ => cc
  | .node256 cc _ _ _ => cc

/-- The child-slot table of a node (empty for a leaf). -/
def Node.childrenOf : Node → List (Option Nat)
  | .leaf _ _ => []
  | .node4 _ _ ch _ _ => ch
  | .node16 _ _ ch _ _ => ch
  | .node48 _ _ ch _ _ => ch
  | .node256 _ ch _ _ => ch

/-- Replace the `prefix_len` and prefix-array header fields of an inner node. -/
def Node.setPfx : Node → Nat → List Nat → Node
  | .leaf k v, _, _ => .leaf k v
  | .node4 cc ks ch _ _, pl, pf => .node4 cc ks ch pl pf
  | .node16 cc ks ch _ _, pl, pf => .node16 cc ks ch pl pf
  | .node48 cc ks ch _ _, pl, pf => .node48 cc ks ch pl pf
  | .node256 cc ch _ _, pl, pf => .node256 cc ch pl pf

/-- Overwrite child slot `i` of a node (a write through the `NodeRef&` returned by
`findChild`). -/
def Node.setChildAt : Node → Nat → Option Nat → Node
  | .leaf k v, _, _ => .leaf k v
  | .node4 cc ks ch pl pf, i, c => .node4 cc ks (ch.set i c) pl pf
  | .node16 cc ks ch pl pf, i, c => .node16 cc ks (ch.set i c) pl pf
  | .node48 cc ks ch pl pf, i, c => .node48 cc ks (ch.set i c) pl pf
  | .node256 cc ch pl pf, i, c => .node256 cc (ch.set i c) pl pf

/-- `InnerNode::commonPrefixLen` (lines 118-127).
`iterTime = min(min(MAX_PREFIX_LEN, prefix_len), key.size() - depth)` is computed in
`size_t`, so `key.size() - depth` wraps modulo 2^64 when `depth` exceeds the key
length; the wrap is modelled explicitly. -/
def Node.commonPrefixLen (t : ART) (n : Node) (key : ARTData) (depth : Nat) : ART × Nat :=
  let diff := ((key.length + SIZE_T_MOD) - depth) % SIZE_T_MOD
  let iterTime := min (min MAX_PREFIX_LEN n.plen) diff
  cplLoop t n.pfx key depth iterTime 0

/-- Exact `std::lower_bound` on a list: binary search returning the first position not
ordered before `b`; deterministic even on unsorted data, as in the library algorithm. -/
def lowerBoundAux (keys : List Nat) (b : Nat) : Nat → Nat → Nat → Nat
  | 0, first, _ => first
  | fuel + 1, first, len =>
      if len = 0 then first
      else
        let half := len / 2
        let mid := first + half
        if keys.getD mid 0 < b then lowerBoundAux keys b fuel (mid + 1) (len - half - 1)
        else lowerBoundAux keys b fuel first half

/-- `std::lower_bound(keys.begin(), keys.end(), b)` as an index (fuel covers every
halving step). -/
def lowerBound (keys : List Nat) (b : Nat) : Nat :=
  lowerBoundAux keys b (keys.length + 1) 0 keys.length

/-- `findChild` of each variant, returning the child-slot INDEX (`none` models the
shared `NULL_NODE` sentinel reference):
  * `Node4::findChild` (lines 129-137): linear scan of `keys[0..cc)`;
  * `Node16::findChild` (lines 172-179): `std::lower_bound` over the whole 16-entry
    keys array, miss when at the end or on a different byte;
  * `Node48::findChild` (lines 222-230): `keys[b]` is a 1-based index, 0 is absent;
  * `Node256::findChild` (lines 252-254): always returns slot `b` (which may be null). -/
def Node.findChildIdx : Node → Nat → Option Nat
  | .leaf _ _, _ => none
  | .node4 cc keys _ _ _, b => (List.range cc).find? (fun i => keys.getD i 0 == b)
  | .node16 _ keys _ _ _, b =>
      let i := lowerBound keys b
      if i < keys.length ∧ keys.getD i 0 == b then some i else none
  | .node48 _ keys _ _ _, b =>
      let i := keys.getD b 0
      if 0 < i then some (i - 1) else none
  | .node256 _ _ _ _, b => some b

/-- Contents of child slot `i` of a node. -/
def Node.childAt (n : Node) (i : Nat) : Option Nat :=
  n.childrenOf.getD i none

/-- The pointer value produced by `findChild`: the contents of the found slot, or null
for the `NULL_NODE` sentinel.  Callers only compare it against `nullptr`. -/
def Node.findChild (n : Node) (b : Nat) : Option Nat :=
  match n.findChildIdx b with
  | some i => n.childAt i
  | none => none

/-- Insertion index of `Node4::addChild` / `Node16::addChild` (lines 140-143 /
183-188): the first `idx < cc` with `keys[idx] > b`, else `cc`. -/
def insIdx (keys : List Nat) (cc : Nat) (b : Nat) : Nat :=
  match (List.range cc).find? (fun i => decide (b < keys.getD i 0)) with
  | some i => i
  | none => cc

/-- The keys array after `memmove(keys+idx+1, keys+idx, cc-idx); keys[idx] = b`
(line 146 and 152): positions `idx+1..cc` take the old `j-1` entry, position `idx`
takes `b`, the rest are unchanged.  A write past the array (only possible on an
already-full node, which `isFull` guards against) is dropped. -/
def keysIns (keys : List Nat) (idx cc b : Nat) : List Nat :=
  (List.range keys.length).map fun j =>
    if j = idx then b
    else if idx + 1 ≤ j ∧ j ≤ cc then keys.getD (j - 1) 0
    else keys.getD j 0

/-- The children array after the shift loop of `Node4::addChild` / `Node16::addChild`
(lines 148-150 / 190-192: `for (i = cc-1; i > idx; i--) children[i] = children[i-1]`)
followed by `children[idx] = child`.  Note the loop starts at `cc-1`, one short of the
keys `memmove`: slot `cc` is never written, so the child previously in slot `cc-1` is
dropped whenever `idx < cc`. -/
def childIns (ch : List (Option Nat)) (idx cc : Nat) (c : Option Nat) : List (Option Nat) :=
  (List.range ch.length).map fun j =>
    if j = idx then c
    else if idx + 1 ≤ j ∧ j + 1 ≤ cc then ch.getD (j - 1) none
    else ch.getD j none

/-- `addChild` of each variant.  `children_count` is `uint8_t`, so every increment is
modulo 256:
  * `Node4::addChild` (139-155) and `Node16::addChild` (181-196): sorted insert via
    `insIdx`/`keysIns`/`childIns`;
  * `Node48::addChild` (212-220): first null child slot `i`, `children[i] = child`,
    `keys[b] = i + 1` (if all 48 slots are full the C++ loop runs off the array;
    that is guarded by `isFull` and modelled as a dropped write);
  * `Node256::addChild` (247-250): `children_count++; children[b] = child` with no
    fullness check. -/
def Node.addChild : Node → Nat → Nat → Node
  | .leaf k v, _, _ => .leaf k v
  | .node4 cc keys ch pl pf, b, c =>
      let idx := insIdx keys cc b
      .node4 ((cc + 1) % 256) (keysIns keys idx cc b) (childIns ch idx cc (some c)) pl pf
  | .node16 cc keys ch pl pf, b, c =>
      let idx := insIdx keys cc b
      .node16 ((cc + 1) % 256) (keysIns keys idx cc b) (childIns ch idx cc (some c)) pl pf
  | .node48 cc keys ch pl pf, b, c =>
      match (List.range ch.length).find? (fun i => (ch.getD i none).isNone) with
      | some i => .node48 ((cc + 1) % 256) (keys.set b (i + 1)) (ch.set i (some c)) pl pf
      | none => .node48 cc keys ch pl pf
  | .node256 cc ch pl pf, b, c =>
      .node256 ((cc + 1) % 256) (ch.set b (some c)) pl pf

/-- `isFull` of each variant (lines 157-159, 198-200, 232-234, 256-258):
`cc >= 4` / `cc >= 16` / `cc >= 48` / always false for `Node256`. -/
def Node.isFull : Node → Bool
  | .leaf _ _ => false
  | .node4 cc _ _ _ _ => decide (4 ≤ cc)
  | .node16 cc _ _ _ _ => decide (16 ≤ cc)
  | .node48 cc _ _ _ _ => decide (48 ≤ cc)
  | .node256 _ _ _ _ => false

/-- `grow` of each variant (lines 161-170, 202-210, 236-245, 260-262).  Each grow
allocates the next-larger variant, copies the populated tables, and
`copyInnerNodeProps` copies `children_count`, `prefix_len` and the prefix bytes.
`Node256::grow` returns `nullptr`, modelled as `none`. -/
def Node.grow : Node → Option Node
  | .leaf _ _ => none
  | .node4 cc keys ch pl pf =>
      some (.node16 cc (keys ++ List.replicate 12 0) (ch ++ List.replicate 12 none) pl pf)
  | .node16 cc keys ch pl pf =>
      let keys48 := (List.range cc).foldl (fun a i => a.set (keys.getD i 0) (i + 1))
        (List.replicate 256 0)
      let ch48 := (List.range 48).map fun i => if i < cc then ch.getD i none else none
      some (.node48 cc keys48 ch48 pl pf)
  | .node48 cc keys ch pl pf =>
      let ch256 := (List.range 256).map fun i =>
        if 0 < keys.getD i 0 then ch.getD (keys.getD i 0 - 1) none else none
      some (.node256 cc ch256 pl pf)
  | .node256 _ _ _ _ => none

/-- A node fresh from `makeNode4` (lines 275-278 and the `Node4` constructor,
art.hpp 57-63): zeroed keys, null children, `children_count = 0`, `prefix_len = 0`.
The prefix array is uninitialised in C++; it is modelled as zeros, and no theorem
below depends on a prefix byte that was never written. -/
def newNode4 : Node :=
  .node4 0 (List.replicate 4 0) (List.replicate 4 none) 0 (List.replicate 8 0)

/-- The leaf-split scan of `ART::insertRecursively` (lines 56-59):
`for (i = depth; key[i] == key2[i]; i++) { new_node->prefix[i-depth] = key[i]; }`.
Each iteration reads `key[i]` and `key2[i]` (unchecked span reads) and writes prefix
byte `i - depth` of the new node.  The loop only stops at a differing byte, so when
one key is a proper prefix of the other it runs past both spans (UB); the fuel bound
covers every terminating run and its exhaustion branch flags UB. -/
def splitScan (key key2 : ARTData) (depth : Nat) :
    Nat → ART → Nat → List Nat → ART × Nat × List Nat
  | 0, t, i, pf => (setUB t, i, pf)
  | f + 1, t, i, pf =>
      let ta := spanGet t key i
      let tb := spanGet ta.1 key2 i
      if ta.2 = tb.2 then
        let tp := arrSet tb.1 pf (i - depth) ta.2
        splitScan key key2 depth f tp.1 (i + 1) tp.2
      else (tb.1, i, pf)

/-- Write child slot `i` of the node at pointer `p` (the write-back of a recursive
call that went through the `NodeRef&` returned by `findChild`). -/
def writeChildAt (t : ART) (p : Nat) (i : Nat) (c : Option Nat) : ART :=
  match t.heap.get? p with
  | some cell => writeCell t p (cell.nd.setChildAt i c)
  | none => setUB t

/-- The add-child tail of `ART::insertRecursively` (lines 85-93).  If the inner node
is full it is grown: `replace(node, new_inner_node); delete node.load()` — the
`delete` runs AFTER the replace, so it frees the freshly grown node, and the
following `addChild` (line 92, which re-reads `key[depth]`) writes into the freed
cell.  Otherwise the child is added to the live node at `p`.  Returns
`(state, slot value, updated-flag)`; this path returns `false` (line 93). -/
def insertAddChild (t : ART) (key : ARTData) (depth : Nat) (p : Nat) (nd : Node)
    (leafp : Nat) (slot : Option Nat) : ART × Option Nat × Bool :=
  if nd.isFull then
    match nd.grow with
    | some g =>
        let tg := alloc t g
        let t1 := freeCell tg.1 tg.2
        let tk := spanGet t1 key depth
        (writeCell tk.1 tg.2 (g.addChild tk.2 leafp), some tg.2, false)
    | none => (setUB t, slot, false)
  else
    let tk := spanGet t key depth
    (writeCell tk.1 p (nd.addChild tk.2 leafp), slot, false)

/-- `ART::insertRecursively` (lines 38-95), on explicit state.  Arguments: fuel, state,
current slot value (`NodeRef& node`), the query key, the pointer of the pre-allocated
new leaf, and `depth`.  Returns the state, the value left in the slot, and the bool
the source returns (its doc comment says it means "the insert was an update of an
existing key").  Branches, in source order:
  * empty slot (39-42): store the leaf, return `true`;
  * leaf with matching key (44-52): `replace(node, leaf); delete node.load()` — the
    `delete` frees the leaf that was just stored, and the original leaf is leaked;
    returns `true`;
  * leaf split (53-64): scan the common run from `depth`, set `prefix_len = i - depth`,
    then `addChild(key[depth], leaf); addChild(key2[depth], node)` — both use the byte
    at `depth` itself, not at `depth + m`; returns `false`;
  * inner node, prefix mismatch (70-79): a fresh `Node4` gets the leaf under
    `key[depth+p]` and the old node under `prefix[depth+p]` (an unchecked read of the
    8-byte prefix array), takes `prefix_len = p` and the first `p` prefix bytes; the
    old node's prefix is shifted left by `p + 1`; returns `false`;
  * inner node, prefix matches (81-94): advance depth by `prefix_len`, look up
    `key[depth]` (unchecked span read); recurse into a non-null child with `depth+1`,
    else fall into `insertAddChild`. -/
def insertRecursively (key : ARTData) (leafp : Nat) :
    Nat → ART → Option Nat → Nat → ART × Option Nat × Bool
  | 0, t, slot, _ => (setUB t, slot, true)
  | fuel + 1, t, slot, depth =>
      match slot with
      | none => (t, some leafp, true)
      | some p =>
          match readCell t p with
          | (t1, none) => (setUB t1, slot, true)
          | (t1, some (.leaf k2 _)) =>
              let tm := leafMatches t1 k2 key depth
              if tm.2 then
                (freeCell tm.1 leafp, some leafp, true)
              else
                let tq := alloc tm.1 newNode4
                let ts := splitScan key k2 depth (key.length + k2.length + 2) tq.1 depth
                  (List.replicate 8 0)
                let n0 : Node := .node4 0 (List.replicate 4 0) (List.replicate 4 none)
                  (ts.2.1 - depth) ts.2.2
                let tb1 := spanGet ts.1 key depth
                let n1 := n0.addChild tb1.2 leafp
                let tb2 := spanGet tb1.1 k2 depth
                let n2 := n1.addChild tb2.2 p
                (writeCell tb2.1 tq.2 n2, some tq.2, false)
          | (t1, some nd) =>
              let tp := Node.commonPrefixLen t1 nd key depth
              if tp.2 ≠ nd.plen then
                let tq := alloc tp.1 newNode4
                let tb1 := spanGet tq.1 key (depth + tp.2)
                let n1 := newNode4.addChild tb1.2 leafp
                let tb2 := arrGet tb1.1 nd.pfx (depth + tp.2)
                let n2 := n1.addChild tb2.2 p
                let n3 := n2.setPfx tp.2 (nd.pfx.take tp.2 ++ List.replicate (8 - tp.2) 0)
                let newPl := nd.plen - (tp.2 + 1)
                let shifted := (List.range nd.pfx.length).map fun j =>
                  if j < newPl then nd.pfx.getD (j + tp.2 + 1) 0 else nd.pfx.getD j 0
                let t2 := writeCell tb2.1 p (nd.setPfx newPl shifted)
                (writeCell t2 tq.2 n3, some tq.2, false)
              else
                let depth2 := depth + nd.plen
                let tk := spanGet tp.1 key depth2
                match nd.findChildIdx tk.2 with
                | some i =>
                    match nd.childAt i with
                    | some cp =>
                        let tr := insertRecursively key leafp fuel tk.1 (some cp) (depth2 + 1)
                        (writeChildAt tr.1 p i tr.2.1, slot, tr.2.2)
                    | none => insertAddChild tk.1 key depth2 p nd leafp slot
                | none => insertAddChild tk.1 key depth2 p nd leafp slot

/-- `ART::searchRecursively` (lines 97-112), on explicit state.  Null is absent; a
leaf answers by `leafMatches`; an inner node advances `depth` by
`commonPrefixLen`, looks up `key[depth]` (an unchecked span read, with no check that
`depth` is still inside the key) and recurses on the found child WITH THE SAME
`depth` (line 111 passes `depth`, not `depth + 1`). -/
def searchRecursively (key : ARTData) :
    Nat → ART → Option Nat → Nat → ART × Option ARTData
  | 0, t, _, _ => (setUB t, none)
  | fuel + 1, t, slot, depth =>
      match slot with
      | none => (t, none)
      | some p =>
          match readCell t p with
          | (t1, none) => (setUB t1, none)
          | (t1, some (.leaf k2 v2)) =>
              let tm := leafMatches t1 k2 key depth
              (tm.1, if tm.2 then some v2 else none)
          | (t1, some nd) =>
              let tp := Node.commonPrefixLen t1 nd key depth
              let depth2 := depth + tp.2
              let tk := spanGet tp.1 key depth2
              searchRecursively key fuel tk.1 (nd.findChild tk.2) depth2

/-- Fuel used by the public operations; ample for every tree in this development. -/
def opFuel : Nat := 100

/-- `ART::insert` (lines 22-28): copy the key, allocate the leaf (`makeLeafNode`),
run `insertRecursively` on the root slot from depth 0, and increment `tree_size`
only when the returned flag is `false`. -/
def ART.insert (t : ART) (key : ARTData) (value : ARTData) : ART :=
  let tl := alloc t (.leaf key value)
  let tr := insertRecursively key tl.2 opFuel tl.1 tl.1.root 0
  let t2 := { tr.1 with root := tr.2.1 }
  if tr.2.2 then t2 else { t2 with tree_size := t2.tree_size + 1 }

/-- `ART::search` (lines 30-32): `searchRecursively(root, key, 0)`.  The state is
returned alongside the result so that the UB flag of the run is observable. -/
def ART.search (t : ART) (key : ARTData) : ART × Option ARTData :=
  searchRecursively key opFuel t t.root 0

/-- `ART::remove` (lines 34-36): the body is empty, so the state is unchanged. -/
def ART.remove (t : ART) (_key : ARTData) : ART := t

/-- `ART::size` (lines 114-116): the `tree_size` counter. -/
def ART.size (t : ART) : Nat := t.tree_size

/-- Count the leaves reachable from a worklist of slots, visiting live cells only
(fuel-bounded walk; the trees measured below are tiny). -/
def countLeavesFrom (t : ART) : Nat → List (Option Nat) → Nat
  | 0, _ => 0
  | _ + 1, [] => 0
  | f + 1, none :: rest => countLeavesFrom t f rest
  | f + 1, some p :: rest =>
      match t.heap.get? p with
      | none => countLeavesFrom t f rest
      | some c =>
          if c.live then
            match c.nd with
            | .leaf _ _ => 1 + countLeavesFrom t f rest
            | nd => countLeavesFrom t f (nd.childrenOf ++ rest)
          else countLeavesFrom t f rest

/-- Number of live leaves reachable from the root. -/
def ART.countLeaves (t : ART) : Nat := countLeavesFrom t 1000 [t.root]

/-! ### Concrete executions used by the theorems -/

/-- Two sibling keys "ab", "ac" (bytes 97 98 / 97 99) inserted into a fresh tree. -/
def tAB : ART := (ART.empty.insert [97, 98] [1]).insert [97, 99] [2]

/-- The spec's leaf-split scenario: insert "foobar" then "foobaz"
(bytes 102 111 111 98 97 114 / 102 111 111 98 97 122) with values "1" and "2". -/
def tFoo : ART :=
  (ART.empty.insert [102, 111, 111, 98, 97, 114] [1]).insert [102, 111, 111, 98, 97, 122] [2]

/-- The same key (byte 97) inserted twice with values v1 = [1], v2 = [2]. -/
def tDup : ART := (ART.empty.insert [97] [1]).insert [97] [2]

/-- A single insert of "hello" -> "world" into a fresh tree. -/
def tHello : ART := ART.empty.insert [104, 101, 108, 108, 111] [119, 111, 114, 108, 100]

/-- Three inserts producing an inner node that sits at depth 2 (pointer 2, reached via
the root's child for byte 2) with `prefix_len = 3` and prefix bytes `[3, 4, 5, ...]`. -/
def tSplit3 : ART :=
  ((ART.empty.insert [1, 2, 3, 4, 5, 9] [1]).insert [1, 2, 3, 4, 5, 8] [2]).insert [1, 9, 9] [3]

/-- `tSplit3` plus an insert of `[1, 2, 7, 7, 7, 7]`, which reaches the inner node at
pointer 2 at depth 2 and hits the prefix-mismatch branch there with `p = 0`. -/
def tSplit4 : ART := tSplit3.insert [1, 2, 7, 7, 7, 7] [4]

/-- A `Node256` fresh from `makeNode256` (constructor at art.hpp 116-121): all 256
child slots null, `children_count = 0`, `prefix_len = 0`. -/
def node256empty : Node := .node256 0 (List.replicate 256 none) 0 (List.replicate 8 0)

/-- Apply `addChild` for each (byte, child-pointer) pair in order. -/
def addAll (n : Node) (ps : List (Nat × Nat)) : Node :=
  ps.foldl (fun m pr => m.addChild pr.1 pr.2) n

/-- All 256 byte values paired with distinct child pointers. -/
def allBytesPairs : List (Nat × Nat) := (List.range 256).map fun b => (b, b + 1)

/-! ### Helper lemmas for the `Node256` counter claim -/

/-- Folding `addChild` over a `Node256` adds every pair to the direct child table and
advances the 8-bit counter by the number of pairs, modulo 256. -/
theorem addAll_node256 (ps : List (Nat × Nat)) :
    ∀ (cc : Nat) (ch : List (Option Nat)) (pl : Nat) (pf : List Nat), cc < 256 →
      addAll (.node256 cc ch pl pf) ps =
        .node256 ((cc + ps.length) % 256)
          (ps.foldl (fun a pr => a.set pr.1 (some pr.2)) ch) pl pf := by
  induction ps with
  | nil =>
      intro cc ch pl pf hcc
      simp [addAll, Nat.mod_eq_of_lt hcc]
  | cons pr tl ih =>
      intro cc ch pl pf hcc
      have h1 : addAll (.node256 cc ch pl pf) (pr :: tl)
          = addAll (.node256 ((cc + 1) % 256) (ch.set pr.1 (some pr.2)) pl pf) tl := by
        simp [addAll, Node.addChild]
      rw [h1, ih ((cc + 1) % 256) (ch.set pr.1 (some pr.2)) pl pf
        (Nat.mod_lt _ (by norm_num))]
      have h2 : ((cc + 1) % 256 + tl.length) % 256 = (cc + (tl.length + 1)) % 256 := by
        rw [Nat.mod_add_mod]
        congr 1
        omega
      simp [h2]

/-- A fold of `set`s at other indices leaves index `i` unchanged. -/
theorem setFold_getD_not_mem (ps : List (Nat × Nat)) :
    ∀ (l : List (Option Nat)) (i : Nat), i ∉ ps.map Prod.fst →
      (ps.foldl (fun a pr => a.set pr.1 (some pr.2)) l).getD i none = l.getD i none := by
  induction ps with
  | nil => intro l i _; rfl
  | cons pr tl ih =>
      intro l i hi
      simp only [List.map_cons, List.mem_cons, not_or] at hi
      rw [List.foldl_cons, ih _ _ hi.2, List.getD_eq_getD_get?,
        List.get?_set_ne _ _ (fun h => hi.1 h.symm), ← List.getD_eq_getD_get?]

/-- A fold of `set`s over pairwise-distinct in-range indices stores every pair. -/
theorem setFold_getD_mem (ps : List (Nat × Nat)) :
    ∀ (l : List (Option Nat)), (ps.map Prod.fst).Nodup →
      ∀ pr ∈ ps, pr.1 < l.length →
        (ps.foldl (fun a q => a.set q.1 (some q.2)) l).getD pr.1 none = some pr.2 := by
  induction ps with
  | nil =>
      intro l _ pr hpr
      exact absurd hpr (List.not_mem_nil pr)
  | cons q tl ih =>
      intro l hnd pr hpr hlt
      simp only [List.map_cons, List.nodup_cons] at hnd
      rcases List.mem_cons.mp hpr with heq | hmem
      · subst heq
        rw [List.foldl_cons, setFold_getD_not_mem tl _ _ hnd.1, List.getD_eq_getD_get?,
          List.get?_set_eq_of_lt _ hlt]
        rfl
      · rw [List.foldl_cons]
        exact ih _ hnd.2 pr hmem (by simpa using hlt)

/-! ### Claim theorems -/

/-- C1: the round-trip property fails on the code.  Inserting the two keys
`[97, 98]` ("ab") and `[97, 99]` ("ac") into a fresh tree and then searching for each
inserted key returns absent for BOTH of them: the leaf split attaches the two leaves
under the shared byte `key[depth]` (lines 61-62) instead of the distinguishing byte
`key[depth + m]`, so the root `Node4` has no child under the byte search probes.
The whole run (both inserts and the failing search) is free of undefined behaviour. -/
theorem insert_search_round_trip_fails :
    (tAB.search [97, 98]).2 = none ∧ (tAB.search [97, 99]).2 = none ∧
      tAB.ub = false ∧ (tAB.search [97, 98]).1.ub = false := by
  decide

/-- C2: inserting `(k, v1)` then `(k, v2)` for `k = [97]` leaves `size() = 0`, not 1:
the empty-slot branch of `insertRecursively` returns `true` ("updated", lines 39-42),
so the first insert never increments `tree_size`, and the second (update) insert does
not either.  Moreover the subsequent `search(k)` only produces `v2` by reading the
leaf that the update path itself freed (lines 48-50) — its run has `ub = true`. -/
theorem insert_update_does_not_increment_size :
    tDup.size = 0 ∧ tDup.ub = false ∧
      (tDup.search [97]).1.ub = true ∧ (tDup.search [97]).2 = some [2] := by
  decide

/-- C3: the size-counter invariant fails after a single insert.  Inserting
"hello" -> "world" into a fresh tree leaves exactly one reachable leaf but
`size() = 0`, because the empty-slot branch of `insertRecursively` returns `true`
and `ART::insert` (lines 25-27) only increments on `false` — contradicting the
function's own doc comment, which says the return value means "the key already
existed". -/
theorem single_insert_size_counter_wrong :
    tHello.size = 0 ∧ tHello.countLeaves = 1 ∧ tHello.ub = false := by
  decide

/-- C4: the leaf split attaches both leaves under the common byte, not under
`key[depth + m]`.  After `insert("foobar", "1")` and `insert("foobaz", "2")` the root
is a `Node4` with `prefix_len = 5` and BOTH children keyed by byte 102 ('f', the value
of `key[depth]`), rather than 114 ('r') and 122 ('z'); consequently
`search("foobar")` and `search("foobaz")` both return absent instead of "1" and "2".
The run is free of undefined behaviour. -/
theorem leaf_split_attaches_under_common_byte :
    tFoo.root = some 2 ∧
      tFoo.heap.get? 2 = some ⟨.node4 2 [102, 102, 0, 0] [some 1, some 0, none, none] 5
        [102, 111, 111, 98, 97, 0, 0, 0], true⟩ ∧
      (tFoo.search [102, 111, 111, 98, 97, 114]).2 = none ∧
      (tFoo.search [102, 111, 111, 98, 97, 122]).2 = none ∧
      (tFoo.search [102, 111, 111]).2 = none ∧ tFoo.ub = false := by
  decide

/-- C5: an insert that replaces the value of an existing key leaves the tree's root
pointing at a freed node.  After `insert([97], [1]); insert([97], [2])` the root slot
holds pointer 1 and the cell at pointer 1 is dead: the update path stores the new
leaf into the slot and then executes `delete node.load()` (lines 48-50), which frees
the leaf it has just installed (the comment there says "delete original existing
node", but the slot already holds the new one; the grow path, lines 87-89, frees its
freshly grown node the same way). -/
theorem update_insert_leaves_dangling_root :
    tDup.root = some 1 ∧ tDup.heap.get? 1 = some ⟨.leaf [97] [2], false⟩ := by
  decide

/-- C6: `leafMatches` does not compare suffix against suffix.  For the stored key
`s = [0, 1]`, query `k = [1, 0]` and depth 1 the lengths agree and the suffixes
`s[1..] = [1]` and `k[1..] = [0]` differ, so the claimed iff requires `false`; the
code returns `true`, because `std::equal(this->key.begin()+depth, this->key.end(),
key.begin())` (line 268) compares the stored suffix against the query taken from its
START, and `k[0..1) = [1]` matches. -/
theorem leafMatches_compares_query_from_start :
    (leafMatches ART.empty [0, 1] [1, 0] 1).2 = true ∧
      ([0, 1] : List Nat).length = ([1, 0] : List Nat).length ∧
      ([0, 1] : List Nat).drop 1 ≠ ([1, 0] : List Nat).drop 1 := by
  decide

/-- C7: the prefix-mismatch split attaches the retained inner node under
`I.prefix[depth + p]`, not under `I.prefix[p]` (line 73).  In `tSplit3` the inner
node at pointer 2 sits at depth 2 with `prefix_len = 3` and prefix bytes
`[3, 4, 5, 4, 5, 0, 0, 0]`.  Inserting `[1, 2, 7, 7, 7, 7]` reaches it with `p = 0`,
so the claim requires the retained node under `I.prefix[0] = 3`; the code instead
attaches it under `I.prefix[2] = 5`.  In the resulting tree the replacing `Node4`
(pointer 6) has the retained node (pointer 2) under byte 5 and no child under byte 3
(its new leaf, attached under `key[depth+p] = 7`, is then lost by the `addChild`
shift).  The old node's prefix is shifted by `p + 1` as claimed.  The run is free of
undefined behaviour. -/
theorem prefix_mismatch_attaches_under_shifted_byte :
    tSplit3.heap.get? 2 = some ⟨.node4 2 [1, 1, 0, 0] [some 1, some 0, none, none] 3
        [3, 4, 5, 4, 5, 0, 0, 0], true⟩ ∧
      tSplit4.heap.get? 6 = some ⟨.node4 2 [5, 7, 0, 0] [some 2, none, none, none] 0
        (List.replicate 8 0), true⟩ ∧
      (Node.node4 2 [5, 7, 0, 0] [some 2, none, none, none] 0
        (List.replicate 8 0)).findChild 3 = none ∧
      (Node.node4 2 [5, 7, 0, 0] [some 2, none, none, none] 0
        (List.replicate 8 0)).findChild 5 = some 2 ∧
      tSplit4.heap.get? 2 = some ⟨.node4 2 [1, 1, 0, 0] [some 1, some 0, none, none] 2
        [4, 5, 5, 4, 5, 0, 0, 0], true⟩ ∧
      tSplit4.ub = false := by
  decide

/-- C8: search has no key-exhaustion check.  On the tree holding `[97, 98]` and
`[97, 99]` (a run with no undefined behaviour), searching for the strict prefix
`[97]` advances `depth` to 1 = `len(key)` at the root inner node and then evaluates
`key[depth]` anyway (line 110) — an out-of-bounds span read, flagged as UB — instead
of returning absent without indexing `key[depth]` as the claim states. -/
theorem search_exhausted_key_reads_out_of_bounds :
    tAB.ub = false ∧ (tAB.search [97]).1.ub = true ∧ (tAB.search [97]).2 = none := by
  decide

/-- C9: `ART::remove` has an empty body (lines 34-36), so it removes nothing and
never decrements the size, contradicting its own doc comment ("Removes a key-value
pair from the ART").  It is the identity on the whole state: after inserting
"hello" -> "world" and removing "hello", the key still searches to "world" and the
size is unchanged. -/
theorem remove_is_a_noop :
    ART.remove tHello [104, 101, 108, 108, 111] = tHello ∧
      ((ART.remove tHello [104, 101, 108, 108, 111]).search
        [104, 101, 108, 108, 111]).2 = some [119, 111, 114, 108, 100] ∧
      (ART.remove tHello [104, 101, 108, 108, 111]).size = tHello.size := by
  decide

/-- C10: `Node256::addChild` (lines 247-250) stores the child in `children[byte]`
and bumps the 8-bit `children_count` with no fullness check (`isFull` is always
false, lines 256-258).  Adding 256 children under pairwise-distinct bytes to a fresh
`Node256` therefore wraps `children_count` to 0, while `findChild` still returns
every one of the 256 stored children. -/
theorem node256_addChild_wraps_and_finds (ps : List (Nat × Nat))
    (hlen : ps.length = 256) (hnd : (ps.map Prod.fst).Nodup)
    (hlt : ∀ pr ∈ ps, pr.1 < 256) :
    (addAll node256empty ps).ccOf = 0 ∧
      (addAll node256empty ps).isFull = false ∧
      ∀ pr ∈ ps, (addAll node256empty ps).findChild pr.1 = some pr.2 := by
  have h := addAll_node256 ps 0 (List.replicate 256 none) 0 (List.replicate 8 0)
    (by norm_num)
  have he : addAll node256empty ps =
      .node256 ((0 + ps.length) % 256)
        (ps.foldl (fun a pr => a.set pr.1 (some pr.2)) (List.replicate 256 none)) 0
        (List.replicate 8 0) := by
    simpa [node256empty] using h
  refine ⟨?_, ?_, ?_⟩
  · rw [he]; simp [Node.ccOf, hlen]
  · rw [he]; rfl
  · intro pr hpr
    rw [he]
    simp only [Node.findChild, Node.findChildIdx, Node.childAt, Node.childrenOf]
    exact setFold_getD_mem ps _ hnd pr hpr (by simpa using hlt pr hpr)

/-- Witness for C10 at a concrete input: all 256 bytes in ascending order, each with
a distinct child pointer. -/
theorem node256_addChild_wraps_witness :
    allBytesPairs.length = 256 ∧ (allBytesPairs.map Prod.fst).Nodup ∧
      (addAll node256empty allBytesPairs).ccOf = 0 ∧
      (addAll node256empty allBytesPairs).findChild 7 = some 8 := by
  have hlen : allBytesPairs.length = 256 := by simp [allBytesPairs]
  have hnd : (allBytesPairs.map Prod.fst).Nodup := by
    simpa [allBytesPairs, List.map_map, Function.comp] using List.nodup_range 256
  have hlt : ∀ pr ∈ allBytesPairs, pr.1 < 256 := by
    intro pr hpr
    simp only [allBytesPairs, List.mem_map, List.mem_range] at hpr
    obtain ⟨b, hb, rfl⟩ := hpr
    simpa using hb
  have h := node256_addChild_wraps_and_finds allBytesPairs hlen hnd hlt
  refine ⟨hlen, hnd, h.1, h.2.2 (7, 8) ?_⟩
  simp only [allBytesPairs, List.mem_map, List.mem_range]
  exact ⟨7, by norm_num, rfl⟩

end ArtiKV
